import Mathlib

/-!
Verification development for the call-report dashboard (`dashboard.py`).

The dashboard is a straight-line pipeline over an in-memory table:
loader → header normalizer → metrics calculator → insight generator →
five chart builders.  This file gives a shallow embedding of that
pipeline and proves/refutes the specified properties.

Modelling conventions:
* a pandas DataFrame is a `Table`: a list of column headers plus a list
  of rows, each row a list of `Cell`s aligned positionally with the
  headers;
* a cell is either a raw string (as loaded from CSV/Excel), a parsed
  datetime (modelled as a day number, so that subtraction of two dates
  is the day span), or `NaT` (pandas' missing datetime, produced when
  `pd.to_datetime(..., errors='coerce')` fails on a value);
* Python exceptions (`KeyError`, `ZeroDivisionError`, `IndexError`,
  chart-library failures) are modelled with `Except String`;
* the chart library (`plotly.express`) is external, so chart builders
  return the data handed to the library call, and for the
  error-handling analysis they are additionally parametrised by the
  library call itself as a fallible function.
-/

set_option maxHeartbeats 1000000

namespace Dashboard

/-- A cell of the in-memory table: a raw string as loaded from the
file, a parsed datetime (day number), or a missing datetime (pandas
`NaT`). -/
inductive Cell where
  | str (s : String)
  | dt (d : Int)
  | NaT
  deriving DecidableEq, Repr

/-- A pandas DataFrame: column headers and rows of cells aligned
positionally with the headers. -/
structure Table where
  headers : List String
  rows : List (List Cell)
  deriving DecidableEq, Repr

/-- `name in df.columns`. -/
def Table.hasCol (df : Table) (name : String) : Bool :=
  df.headers.contains name

/-- `df[name]`: the cells of the (first) column called `name`, empty if
the column is absent. -/
def Table.col (df : Table) (name : String) : List Cell :=
  match df.headers.findIdx? (fun h => h == name) with
  | some i => df.rows.map (fun r => r.getD i (Cell.str ""))
  | none => []

/-- A table is rectangular when every row has one cell per header. -/
def Table.Rect (df : Table) : Prop :=
  ∀ r ∈ df.rows, r.length = df.headers.length

instance (df : Table) : Decidable df.Rect := by
  unfold Table.Rect; infer_instance

/-! ### Header normalization (Python `str.lower` / `str.strip`) -/

/-- Python `str.lower()` (ASCII letters, as in the headers at hand). -/
def pyLower (s : String) : String :=
  ⟨s.data.map Char.toLower⟩

/-- Drop leading whitespace of a character list. -/
def dropLead (l : List Char) : List Char :=
  l.dropWhile Char.isWhitespace

/-- Python `str.strip()`: drop leading and trailing whitespace. -/
def pyStrip (s : String) : String :=
  ⟨(dropLead ((dropLead s.data).reverse)).reverse⟩

/-- The transformation `df.columns.str.lower().str.strip()` applies to
each header. -/
def normalizeHeader (s : String) : String :=
  pyStrip (pyLower s)

/-! ### `validate_data` -/

/-- The required-column vocabulary of `validate_data`. -/
def required_columns : List String :=
  ["representative", "doctor", "division", "date"]

/-- `missing_columns` as computed by `validate_data`: the required
columns not among the *lower-cased* (not stripped) headers. -/
def missing_columns (df : Table) : List String :=
  required_columns.filter (fun col => !((df.headers.map pyLower).contains col))

/-- Whether `validate_data` issues its non-fatal warning. -/
def validate_warns (df : Table) : Bool :=
  !(missing_columns df).isEmpty

/-- The table returned by `validate_data`: headers lower-cased and
stripped (`df.columns = df.columns.str.lower().str.strip()`). -/
def validate_data (df : Table) : Table :=
  { df with headers := df.headers.map normalizeHeader }

/-! ### `get_key_metrics` -/

/-- `Series.nunique()`: the number of distinct values of a column. -/
def nunique (l : List Cell) : Nat :=
  l.dedup.length

/-- `get_key_metrics`: the metrics dict, built key by key; a
distinct-count key is present exactly when its column is. -/
def get_key_metrics (df : Table) : List (String × Nat) :=
  [("total_calls", df.rows.length)]
    ++ (if df.hasCol "representative" then
          [("total_reps", nunique (df.col "representative"))] else [])
    ++ (if df.hasCol "doctor" then
          [("total_doctors", nunique (df.col "doctor"))] else [])
    ++ (if df.hasCol "division" then
          [("total_divisions", nunique (df.col "division"))] else [])

/-- C1: the metrics mapping has `total_calls` = row count always, and
each distinct-count key exactly when its column is present. -/
theorem get_key_metrics_spec (df : Table) :
    (get_key_metrics df).lookup "total_calls" = some df.rows.length
    ∧ (get_key_metrics df).lookup "total_reps" =
        (if df.hasCol "representative" then
          some (nunique (df.col "representative")) else none)
    ∧ (get_key_metrics df).lookup "total_doctors" =
        (if df.hasCol "doctor" then
          some (nunique (df.col "doctor")) else none)
    ∧ (get_key_metrics df).lookup "total_divisions" =
        (if df.hasCol "division" then
          some (nunique (df.col "division")) else none) := by
  unfold get_key_metrics
  cases hr : df.hasCol "representative" <;>
    cases hd : df.hasCol "doctor" <;>
      cases hv : df.hasCol "division" <;>
        simp [List.lookup]

/-! ### Date parsing (model of the pandas library parser) -/

/-- Split a character list on a separator character. -/
def splitOnChar (sep : Char) : List Char → List (List Char)
  | [] => [[]]
  | c :: cs =>
    match splitOnChar sep cs with
    | [] => if c = sep then [[], []] else [[c]]
    | g :: gs => if c = sep then [] :: g :: gs else (c :: g) :: gs

/-- Digits to a number, most significant first. -/
def digitsToNat (l : List Char) : Nat :=
  l.foldl (fun a c => a * 10 + (c.toNat - 48)) 0

/-- Modelled from the spec: `pd.to_datetime(..., errors='coerce')`, the
library date parser, is not part of the repository; the spec only needs
that each date string either parses to a date or is coerced to missing.
We model it on ISO `YYYY-MM-DD` strings, mapped monotonically to a day
number so that subtracting two dates yields the day span; anything else
fails to parse. -/
def to_datetime (s : String) : Option Int :=
  match splitOnChar (Char.ofNat 45) s.data with
  | [y, m, d] =>
    if y.length = 4 ∧ m.length = 2 ∧ d.length = 2
        ∧ (y ++ m ++ d).all Char.isDigit then
      let yn := digitsToNat y
      let mn := digitsToNat m
      let dn := digitsToNat d
      if 1 ≤ mn ∧ mn ≤ 12 ∧ 1 ≤ dn ∧ dn ≤ 31 then
        some (Int.ofNat (yn * 372 + (mn - 1) * 31 + (dn - 1)))
      else none
    else none
  | _ => none

/-- Elementwise `pd.to_datetime(column, errors='coerce')`: strings are
parsed or coerced to `NaT`; datetimes pass through; `NaT` stays. -/
def to_datetime_cell (c : Cell) : Cell :=
  match c with
  | Cell.str s =>
    match to_datetime s with
    | some d => Cell.dt d
    | none => Cell.NaT
  | Cell.dt d => Cell.dt d
  | Cell.NaT => Cell.NaT

/-- `pd.to_datetime(df[col], errors='coerce')` over a whole column. -/
def to_datetime_col (l : List Cell) : List Cell :=
  l.map to_datetime_cell

/-- The datetimes of a column, in order, skipping everything that is
not a parsed datetime (this is what survives `dropna(subset=['date'])`
after coercion). -/
def dtExtract (l : List Cell) : List Int :=
  l.filterMap (fun c => match c with | Cell.dt d => some d | _ => none)

/-- The dates of `df['date']` that parse, in row order: the coerced
column after `dropna`. -/
def parsedDates (df : Table) : List Int :=
  dtExtract (to_datetime_col (df.col "date"))

/-! ### `value_counts` -/

/-- `Series.value_counts()`: the distinct values paired with their
frequencies, sorted by descending frequency (tie order unspecified in
pandas; this realization keeps a deterministic order). -/
def value_counts (l : List Cell) : List (Cell × Nat) :=
  ((l.dedup).insertionSort (fun a b => l.count b ≤ l.count a)).map
    (fun v => (v, l.count v))

/-- `value_counts().index[0]` with `.values[0]`: the most frequent
value and its count, `none` when the column is empty (pandas raises
`IndexError` there). -/
def mostFrequent (l : List Cell) : Option (Cell × Nat) :=
  (value_counts l).head?

/-! ### `generate_insights` -/

/-- The content of one insight line (the `:.1f` float rendering is
presentation; divisions are kept as numerator/denominator pairs). -/
inductive Insight where
  | avgCallsPerRep (total_calls total_reps : Nat)
  | topPerformer (name : Cell) (calls : Nat)
  | avgVisitsPerDoctor (total_calls total_doctors : Nat)
  | topDivision (name : Cell) (calls : Nat)
  | dateSpan (days : Int)
  | dailyAvg (calls : Nat) (days : Int)
  deriving DecidableEq, Repr

/-- `metrics[k]`: dict access, `KeyError` when absent. -/
def getMetric (metrics : List (String × Nat)) (k : String) :
    Except String Nat :=
  match metrics.lookup k with
  | some v => Except.ok v
  | none => Except.error "KeyError"

/-- The representative block of `generate_insights`: the
calls-per-representative average (a true division, so
`ZeroDivisionError` when `total_reps = 0`) followed by the top
performer (`IndexError` on an empty column). -/
def repInsights (df : Table) (metrics : List (String × Nat)) :
    Except String (List Insight) :=
  if df.hasCol "representative" then do
    let tc ← getMetric metrics "total_calls"
    let tr ← getMetric metrics "total_reps"
    if tr = 0 then throw "ZeroDivisionError"
    else
      match mostFrequent (df.col "representative") with
      | none => throw "IndexError"
      | some (v, c) =>
        pure [Insight.avgCallsPerRep tc tr, Insight.topPerformer v c]
  else pure []

/-- The doctor block of `generate_insights`: the visits-per-doctor
average. -/
def docInsights (df : Table) (metrics : List (String × Nat)) :
    Except String (List Insight) :=
  if df.hasCol "doctor" then do
    let tc ← getMetric metrics "total_calls"
    let td ← getMetric metrics "total_doctors"
    if td = 0 then throw "ZeroDivisionError"
    else pure [Insight.avgVisitsPerDoctor tc td]
  else pure []

/-- The division block of `generate_insights`: the most active
division. -/
def divInsights (df : Table) : Except String (List Insight) :=
  if df.hasCol "division" then
    match mostFrequent (df.col "division") with
    | none => throw "IndexError"
    | some (v, c) => pure [Insight.topDivision v c]
  else pure []

/-- The date block of `generate_insights`, applied to the already
coerced date column: after `dropna`, if any row is left, the day span
between the maximum and minimum date and the daily average
`len(df) / max(date_range, 1)` — `len(df)` counts the rows that
survived `dropna`.  The surrounding `try/except` never fires in this
block, so it is total. -/
def dateInsights (dateCol : List Cell) : List Insight :=
  match dtExtract dateCol with
  | [] => []
  | d :: ds =>
    let dmax := ds.foldl max d
    let dmin := ds.foldl min d
    let range : Int := dmax - dmin
    [Insight.dateSpan range,
     Insight.dailyAvg (d :: ds).length (max range 1)]

/-- `df[name] = vals`: overwrite the cells of column `name` (the code
only does this when the column exists; the absent case is left as a
no-op since it is unreachable there). -/
def set_col (df : Table) (name : String) (vals : List Cell) : Table :=
  match df.headers.findIdx? (fun h => h == name) with
  | some i =>
    { df with rows := df.rows.zipWith (fun r v => r.set i v) vals }
  | none => df

/-- `generate_insights(df, metrics)`.  The result is the raised
exception or the insight list, *and* the table as the caller sees it
afterwards: the statement `df['date'] = pd.to_datetime(df['date'],
errors='coerce')` mutates the caller's date column in place (the later
`df = df.dropna(...)` only rebinds the local name).  The mutation
happens only if the earlier blocks did not raise and a date column is
present. -/
def generate_insights (df : Table) (metrics : List (String × Nat)) :
    Except String (List Insight) × Table :=
  match (do
      let r ← repInsights df metrics
      let d ← docInsights df metrics
      let v ← divInsights df
      pure (r ++ d ++ v) : Except String (List Insight)) with
  | Except.error e => (Except.error e, df)
  | Except.ok base =>
    if df.hasCol "date" then
      let df2 := set_col df "date" (to_datetime_col (df.col "date"))
      (Except.ok (base ++ dateInsights (df2.col "date")), df2)
    else (Except.ok base, df)

/-! ### Chart builders

Each builder returns the data handed to the chart-library call, or
`none` when its required column is missing.  A second, parametrised
version of each builder takes the library call itself (`px.bar`,
`px.pie`, `px.line`, `px.imshow`) as a fallible function, to settle how
exceptions raised during chart construction travel: the result is
`Except.error e` exactly when an exception escapes the builder. -/

/-- `create_rep_performance_chart`: top-10 representatives by call
count. -/
def create_rep_performance_chart (df : Table) :
    Option (List (Cell × Nat)) :=
  if df.hasCol "representative" then
    some ((value_counts (df.col "representative")).take 10)
  else none

/-- Daily call counts: distinct parsed days (sorted ascending, as
`groupby` sorts its keys) with the number of rows on each. -/
def groupCounts (l : List Int) : List (Int × Nat) :=
  ((l.dedup).insertionSort (fun a b => a ≤ b)).map (fun d => (d, l.count d))

/-- `create_time_trend_chart`: `none` without a date column or when no
row survives the coercion + `dropna`; otherwise the daily call counts
of the rows whose date parsed. -/
def create_time_trend_chart (df : Table) : Option (List (Int × Nat)) :=
  if df.hasCol "date" then
    let parsed := parsedDates df
    if parsed.length = 0 then none
    else some (groupCounts parsed)
  else none

/-- `pd.crosstab(df['division'], df['representative'])`: for each
distinct division, the count of rows per distinct representative. -/
def crosstab (xs ys : List Cell) : List (Cell × List (Cell × Nat)) :=
  xs.dedup.map (fun r =>
    (r, ys.dedup.map (fun c => (c, (xs.zip ys).count (r, c)))))

/-- `create_rep_performance_chart` with the `px.bar` call explicit. -/
def create_rep_performance_chart_exc {C : Type}
    (px_bar : List (Cell × Nat) → Except String C) (df : Table) :
    Except String (Option C) :=
  if df.hasCol "representative" then do
    let fig ← px_bar ((value_counts (df.col "representative")).take 10)
    pure (some fig)
  else pure none

/-- `create_division_analysis_chart` with the `px.pie` call
explicit. -/
def create_division_analysis_chart_exc {C : Type}
    (px_pie : List (Cell × Nat) → Except String C) (df : Table) :
    Except String (Option C) :=
  if df.hasCol "division" then do
    let fig ← px_pie (value_counts (df.col "division"))
    pure (some fig)
  else pure none

/-- `create_time_trend_chart` with the `px.line` call explicit: the
whole body after the column test sits in a `try` whose `except` shows a
warning and returns `None`. -/
def create_time_trend_chart_exc {C : Type}
    (px_line : List (Int × Nat) → Except String C) (df : Table) :
    Except String (Option C) :=
  if df.hasCol "date" then
    match (do
        let parsed := parsedDates df
        if parsed.length = 0 then pure none
        else do
          let fig ← px_line (groupCounts parsed)
          pure (some fig) : Except String (Option C)) with
    | Except.ok r => pure r
    | Except.error _ => pure none
  else pure none

/-- `create_doctor_engagement_chart` with the `px.bar` call explicit:
top-15 doctors by visit count. -/
def create_doctor_engagement_chart_exc {C : Type}
    (px_bar : List (Cell × Nat) → Except String C) (df : Table) :
    Except String (Option C) :=
  if df.hasCol "doctor" then do
    let fig ← px_bar ((value_counts (df.col "doctor")).take 15)
    pure (some fig)
  else pure none

/-- `create_cross_analysis` with the `px.imshow` call explicit. -/
def create_cross_analysis_exc {C : Type}
    (px_imshow : List (Cell × List (Cell × Nat)) → Except String C)
    (df : Table) : Except String (Option C) :=
  if df.hasCol "division" ∧ df.hasCol "representative" then do
    let fig ← px_imshow
      (crosstab (df.col "division") (df.col "representative"))
    pure (some fig)
  else pure none

/-! ### `load_data` -/

/-- An uploaded file: a name and an opaque byte content (the content
type is a parameter, as only the parsers look inside). -/
structure UploadFile (β : Type) where
  name : String
  content : β

/-- Python `str.endswith`. -/
def pyEndsWith (s suffix : String) : Bool :=
  suffix.data.isSuffixOf s.data

/-- `load_data`, parametrised by the library parsers `pd.read_csv` and
`pd.read_excel` (fallible: a parse exception is `Except.error`).  The
whole body sits in a `try` whose `except` shows an error message and
returns `None`; the unsupported-extension branch also shows an error
and returns `None`. -/
def load_data {β : Type}
    (read_csv read_excel : β → Except String Table)
    (file : UploadFile β) : Option Table :=
  if pyEndsWith file.name ".csv" then
    (read_csv file.content).toOption
  else if pyEndsWith file.name ".xlsx" ∨ pyEndsWith file.name ".xls" then
    (read_excel file.content).toOption
  else none

/-! ### Character-level facts about `str.lower` / `str.strip` -/

theorem toNat_ofNat_valid {n : Nat} (h : n.isValidChar) :
    (Char.ofNat n).toNat = n := by
  unfold Char.ofNat
  rw [dif_pos h]
  rfl

theorem toLower_idem (c : Char) : c.toLower.toLower = c.toLower := by
  unfold Char.toLower
  by_cases h : c.toNat ≥ 65 ∧ c.toNat ≤ 90
  · rw [if_pos h]
    have hv : (c.toNat + 32).isValidChar := Or.inl (by omega)
    have ht : (Char.ofNat (c.toNat + 32)).toNat = c.toNat + 32 :=
      toNat_ofNat_valid hv
    rw [ht, if_neg (by omega)]
  · rw [if_neg h, if_neg h]

theorem isWhitespace_of_large {c : Char} (h : 64 < c.toNat) :
    c.isWhitespace = false := by
  have h1 : c ≠ ' ' := fun e => absurd h (by subst e; decide)
  have h2 : c ≠ '\t' := fun e => absurd h (by subst e; decide)
  have h3 : c ≠ '\r' := fun e => absurd h (by subst e; decide)
  have h4 : c ≠ '\n' := fun e => absurd h (by subst e; decide)
  simp [Char.isWhitespace, h1, h2, h3, h4]

theorem isWhitespace_toLower (c : Char) :
    c.toLower.isWhitespace = c.isWhitespace := by
  unfold Char.toLower
  by_cases h : c.toNat ≥ 65 ∧ c.toNat ≤ 90
  · rw [if_pos h]
    have ht : (Char.ofNat (c.toNat + 32)).toNat = c.toNat + 32 :=
      toNat_ofNat_valid (Or.inl (by omega))
    rw [isWhitespace_of_large (by omega), isWhitespace_of_large (by omega)]
  · rw [if_neg h]

/-- Lower-casing a character list twice is lower-casing it once. -/
theorem lowerData_idem (l : List Char) :
    (l.map Char.toLower).map Char.toLower = l.map Char.toLower := by
  rw [List.map_map]
  congr 1
  funext c
  exact toLower_idem c

/-- Lower-casing commutes with dropping leading whitespace. -/
theorem dropWhile_ws_map_toLower (l : List Char) :
    List.dropWhile Char.isWhitespace (l.map Char.toLower)
      = (List.dropWhile Char.isWhitespace l).map Char.toLower := by
  rw [List.dropWhile_map]
  have h : (Char.isWhitespace ∘ Char.toLower) = Char.isWhitespace := by
    funext c
    exact isWhitespace_toLower c
  rw [h]

/-- After stripping leading whitespace, stripping trailing then leading
whitespace again does nothing at the front. -/
theorem dropWhile_rdropWhile_dropWhile (p : Char → Bool) (l : List Char) :
    List.dropWhile p (List.rdropWhile p (List.dropWhile p l))
      = List.rdropWhile p (List.dropWhile p l) := by
  rw [List.dropWhile_eq_self_iff]
  intro hl
  have hpre := List.rdropWhile_prefix p (List.dropWhile p l)
  have hlen : 0 < (List.dropWhile p l).length :=
    lt_of_lt_of_le hl hpre.length_le
  rw [List.get_eq_getElem, hpre.getElem hl]
  have := List.dropWhile_get_zero_not p l hlen
  simpa using this

/-- `pyStrip` is: drop leading whitespace, then drop trailing
whitespace. -/
theorem pyStrip_data (s : String) :
    (pyStrip s).data
      = List.rdropWhile Char.isWhitespace
          (List.dropWhile Char.isWhitespace s.data) := rfl

theorem pyLower_data (s : String) :
    (pyLower s).data = s.data.map Char.toLower := rfl

/-- Strip-after-strip over character data is one strip. -/
theorem stripData_idem (l : List Char) :
    List.rdropWhile Char.isWhitespace
        (List.dropWhile Char.isWhitespace
          (List.rdropWhile Char.isWhitespace
            (List.dropWhile Char.isWhitespace l)))
      = List.rdropWhile Char.isWhitespace
          (List.dropWhile Char.isWhitespace l) := by
  rw [dropWhile_rdropWhile_dropWhile, List.rdropWhile_idempotent]

/-- Lower-casing commutes with a full strip. -/
theorem stripData_map_toLower (l : List Char) :
    (List.rdropWhile Char.isWhitespace
        (List.dropWhile Char.isWhitespace l)).map Char.toLower
      = List.rdropWhile Char.isWhitespace
          (List.dropWhile Char.isWhitespace (l.map Char.toLower)) := by
  rw [dropWhile_ws_map_toLower]
  unfold List.rdropWhile
  rw [← List.map_reverse, dropWhile_ws_map_toLower, List.map_reverse]

/-- The header transformation `str.lower().str.strip()` is
idempotent. -/
theorem normalizeHeader_idem (s : String) :
    normalizeHeader (normalizeHeader s) = normalizeHeader s := by
  unfold normalizeHeader
  apply String.ext
  simp only [pyStrip_data, pyLower_data]
  rw [stripData_map_toLower, lowerData_idem, stripData_idem]

/-- C10: a table whose headers are already lower-cased and trimmed is
left unchanged by the normalizer, and normalizing twice equals
normalizing once. -/
theorem validate_data_idem (df : Table) :
    ((∀ h ∈ df.headers, normalizeHeader h = h) → validate_data df = df)
    ∧ validate_data (validate_data df) = validate_data df := by
  constructor
  · intro hfix
    unfold validate_data
    have : df.headers.map normalizeHeader = df.headers := by
      rw [List.map_congr_left hfix]
      simp
    rw [this]
  · unfold validate_data
    congr 1
    rw [List.map_map]
    exact List.map_congr_left (fun h _ => normalizeHeader_idem h)

/-- Witness for C10 at a table with already-normalized headers. -/
theorem validate_data_idem_witness :
    validate_data { headers := ["representative", "date"], rows := [] }
      = { headers := ["representative", "date"], rows := [] } :=
  (validate_data_idem _).1 (by decide)

/-! ### Basic table and aggregation lemmas -/

theorem hasCol_findIdx (df : Table) (n : String) :
    df.hasCol n = (df.headers.findIdx? (fun h => h == n)).isSome := by
  rw [List.findIdx?_isSome]
  unfold Table.hasCol
  rw [List.contains_eq_any_beq]
  apply Bool.eq_iff_iff.mpr
  simp only [List.any_eq_true, beq_iff_eq]
  exact ⟨fun ⟨x, hx, e⟩ => ⟨x, hx, e.symm⟩, fun ⟨x, hx, e⟩ => ⟨x, hx, e.symm⟩⟩

theorem col_length (df : Table) (n : String) (h : df.hasCol n = true) :
    (df.col n).length = df.rows.length := by
  rw [hasCol_findIdx] at h
  unfold Table.col
  cases hi : df.headers.findIdx? (fun x => x == n) with
  | some i => simp
  | none => rw [hi] at h; simp at h

theorem lookup_total_calls (df : Table) :
    (get_key_metrics df).lookup "total_calls" = some df.rows.length := by
  unfold get_key_metrics
  cases hr : df.hasCol "representative" <;>
    cases hd : df.hasCol "doctor" <;>
      cases hv : df.hasCol "division" <;> simp [List.lookup]

theorem lookup_total_reps (df : Table) :
    (get_key_metrics df).lookup "total_reps" =
      (if df.hasCol "representative" then
        some (nunique (df.col "representative")) else none) := by
  unfold get_key_metrics
  cases hr : df.hasCol "representative" <;>
    cases hd : df.hasCol "doctor" <;>
      cases hv : df.hasCol "division" <;> simp [List.lookup]

theorem lookup_total_doctors (df : Table) :
    (get_key_metrics df).lookup "total_doctors" =
      (if df.hasCol "doctor" then
        some (nunique (df.col "doctor")) else none) := by
  unfold get_key_metrics
  cases hr : df.hasCol "representative" <;>
    cases hd : df.hasCol "doctor" <;>
      cases hv : df.hasCol "division" <;> simp [List.lookup]

/-- A non-empty column has at least one distinct value. -/
theorem nunique_pos {l : List Cell} (h : l ≠ []) : 1 ≤ nunique l := by
  unfold nunique
  have : l.dedup ≠ [] := fun e => h ((List.dedup_eq_nil l).mp e)
  exact Nat.one_le_iff_ne_zero.mpr (fun e => this (List.length_eq_zero.mp e))

theorem nunique_nil : nunique [] = 0 := rfl

/-- `value_counts` of a non-empty column is non-empty, so its top entry
exists. -/
theorem mostFrequent_isSome {l : List Cell} (h : l ≠ []) :
    (mostFrequent l).isSome = true := by
  unfold mostFrequent value_counts
  rw [List.head?_isSome]
  simp only [ne_eq, List.map_eq_nil_iff]
  intro e
  have := (List.perm_insertionSort
    (fun a b => l.count b ≤ l.count a) l.dedup).symm.length_eq
  rw [e] at this
  have hlen : l.dedup.length = 0 := by
    rw [List.length_nil] at this
    omega
  exact h ((List.dedup_eq_nil l).mp (List.length_eq_zero.mp hlen))

/-- `foldl max` computes an upper bound that is the seed or a member. -/
theorem foldl_max_spec (d : Int) (ds : List Int) :
    (ds.foldl max d = d ∨ ds.foldl max d ∈ ds)
    ∧ d ≤ ds.foldl max d ∧ ∀ x ∈ ds, x ≤ ds.foldl max d := by
  induction ds generalizing d with
  | nil => simp
  | cons a t ih =>
    simp only [List.foldl_cons]
    obtain ⟨hmem, hle, hall⟩ := ih (max d a)
    refine ⟨?_, ?_, ?_⟩
    · rcases max_choice d a with hm | hm <;> rw [hm] at hmem ⊢
      · rcases hmem with h | h
        · exact Or.inl h
        · exact Or.inr (List.mem_cons_of_mem a h)
      · rcases hmem with h | h
        · exact Or.inr (by rw [h]; exact List.mem_cons_self a t)
        · exact Or.inr (List.mem_cons_of_mem a h)
    · exact le_trans (le_max_left d a) hle
    · intro x hx
      rcases List.mem_cons.mp hx with rfl | hx
      · exact le_trans (le_max_right d x) hle
      · exact hall x hx

/-- `foldl min` computes a lower bound that is the seed or a member. -/
theorem foldl_min_spec (d : Int) (ds : List Int) :
    (ds.foldl min d = d ∨ ds.foldl min d ∈ ds)
    ∧ ds.foldl min d ≤ d ∧ ∀ x ∈ ds, ds.foldl min d ≤ x := by
  induction ds generalizing d with
  | nil => simp
  | cons a t ih =>
    simp only [List.foldl_cons]
    obtain ⟨hmem, hle, hall⟩ := ih (min d a)
    refine ⟨?_, ?_, ?_⟩
    · rcases min_choice d a with hm | hm <;> rw [hm] at hmem ⊢
      · rcases hmem with h | h
        · exact Or.inl h
        · exact Or.inr (List.mem_cons_of_mem a h)
      · rcases hmem with h | h
        · exact Or.inr (by rw [h]; exact List.mem_cons_self a t)
        · exact Or.inr (List.mem_cons_of_mem a h)
    · exact le_trans hle (min_le_left d a)
    · intro x hx
      rcases List.mem_cons.mp hx with rfl | hx
      · exact le_trans hle (min_le_right d x)
      · exact hall x hx

/-! ### Structure of `generate_insights` -/

/-- `generate_insights` decomposed by the outcome of its three fallible
blocks: any raised exception propagates with the table untouched;
otherwise the date block runs, mutating the date column when present. -/
theorem generate_insights_eq (df : Table) (m : List (String × Nat)) :
    generate_insights df m =
      match repInsights df m, docInsights df m, divInsights df with
      | Except.ok r, Except.ok d, Except.ok v =>
        if df.hasCol "date" then
          (Except.ok (r ++ d ++ v ++ dateInsights
            ((set_col df "date" (to_datetime_col (df.col "date"))).col "date")),
           set_col df "date" (to_datetime_col (df.col "date")))
        else (Except.ok (r ++ d ++ v), df)
      | Except.error e, _, _ => (Except.error e, df)
      | Except.ok _, Except.error e, _ => (Except.error e, df)
      | Except.ok _, Except.ok _, Except.error e => (Except.error e, df) := by
  unfold generate_insights
  cases repInsights df m <;> cases docInsights df m <;> cases divInsights df <;>
    simp [Bind.bind, Except.bind, pure, Except.pure, List.append_assoc]

/-- Without a representative column, the representative block emits
nothing. -/
theorem repInsights_rep_absent (df : Table) (m : List (String × Nat))
    (h : df.hasCol "representative" = false) :
    repInsights df m = Except.ok [] := by
  simp [repInsights, h, pure, Except.pure]

/-- A successful representative block is empty or exactly the average
plus the top performer. -/
theorem repInsights_shape (df : Table) (m : List (String × Nat))
    (l : List Insight) (h : repInsights df m = Except.ok l) :
    l = [] ∨ ∃ a b v c,
      l = [Insight.avgCallsPerRep a b, Insight.topPerformer v c] := by
  unfold repInsights at h
  by_cases hc : df.hasCol "representative"
  · rw [if_pos hc] at h
    unfold getMetric at h
    cases h1 : m.lookup "total_calls" with
    | none => rw [h1] at h; simp [Bind.bind, Except.bind] at h
    | some tc =>
      rw [h1] at h
      cases h2 : m.lookup "total_reps" with
      | none => rw [h2] at h; simp [Bind.bind, Except.bind] at h
      | some tr =>
        rw [h2] at h
        by_cases h3 : tr = 0
        · simp [Bind.bind, Except.bind, h3, throw, throwThe,
            MonadExceptOf.throw] at h
        · cases h4 : mostFrequent (df.col "representative") with
          | none =>
            simp [Bind.bind, Except.bind, h3, h4, throw, throwThe,
              MonadExceptOf.throw] at h
          | some vc =>
            obtain ⟨v, c⟩ := vc
            simp [Bind.bind, Except.bind, h3, h4, pure, Except.pure] at h
            exact Or.inr ⟨tc, tr, v, c, h.symm⟩
  · rw [if_neg hc] at h
    simp [pure, Except.pure] at h
    exact Or.inl h

/-- A successful doctor block is empty or exactly the
visits-per-doctor average. -/
theorem docInsights_shape (df : Table) (m : List (String × Nat))
    (l : List Insight) (h : docInsights df m = Except.ok l) :
    l = [] ∨ ∃ a b, l = [Insight.avgVisitsPerDoctor a b] := by
  unfold docInsights at h
  by_cases hc : df.hasCol "doctor"
  · rw [if_pos hc] at h
    unfold getMetric at h
    cases h1 : m.lookup "total_calls" with
    | none => rw [h1] at h; simp [Bind.bind, Except.bind] at h
    | some tc =>
      rw [h1] at h
      cases h2 : m.lookup "total_doctors" with
      | none => rw [h2] at h; simp [Bind.bind, Except.bind] at h
      | some td =>
        rw [h2] at h
        by_cases h3 : td = 0
        · simp [Bind.bind, Except.bind, h3, throw, throwThe,
            MonadExceptOf.throw] at h
        · simp [Bind.bind, Except.bind, h3, pure, Except.pure] at h
          exact Or.inr ⟨tc, td, h.symm⟩
  · rw [if_neg hc] at h
    simp [pure, Except.pure] at h
    exact Or.inl h

/-- A successful division block is empty or exactly the most-active
division. -/
theorem divInsights_shape (df : Table) (l : List Insight)
    (h : divInsights df = Except.ok l) :
    l = [] ∨ ∃ v c, l = [Insight.topDivision v c] := by
  unfold divInsights at h
  by_cases hc : df.hasCol "division"
  · rw [if_pos hc] at h
    cases h4 : mostFrequent (df.col "division") with
    | none =>
      simp [h4, throw, throwThe, MonadExceptOf.throw] at h
    | some vc =>
      obtain ⟨v, c⟩ := vc
      simp [h4, pure, Except.pure] at h
      exact Or.inr ⟨v, c, h.symm⟩
  · rw [if_neg hc] at h
    simp [pure, Except.pure] at h
    exact Or.inl h

/-- The date block is empty or exactly the span plus the daily
average. -/
theorem dateInsights_shape (dateCol : List Cell) :
    dateInsights dateCol = []
    ∨ ∃ r n k, dateInsights dateCol =
        [Insight.dateSpan r, Insight.dailyAvg n k] := by
  unfold dateInsights
  cases h : dtExtract dateCol with
  | nil => exact Or.inl rfl
  | cons d ds => exact Or.inr ⟨_, _, _, rfl⟩

/-! ### Effect of the in-place date mutation on the table -/

/-- Reading back the written date cell of one row gives the coerced
value, as far as datetime extraction is concerned (a too-short row is
never written and reads back as an empty string, which coerces to
`NaT`, so both sides drop it). -/
theorem extract_getD_set (i : Nat) (r : List Cell) :
    (match (r.set i (to_datetime_cell (r.getD i (Cell.str "")))).getD i
        (Cell.str "") with
      | Cell.dt d => some d | _ => none)
      = (match to_datetime_cell (r.getD i (Cell.str "")) with
      | Cell.dt d => some d | _ => none) := by
  by_cases hi : i < r.length
  · rw [List.getD_eq_getElem?_getD, List.getElem?_set_self (by simpa using hi)]
    rfl
  · have hle : r.length ≤ i := Nat.le_of_not_lt hi
    rw [List.set_eq_of_length_le hle, List.getD_eq_getElem?_getD,
      List.getElem?_eq_none (by simpa using hle)]
    rfl

theorem extract_row_lemma (i : Nat) : ∀ rows : List (List Cell),
    List.filterMap (fun c => match c with | Cell.dt d => some d | _ => none)
      ((List.zipWith (fun r v => r.set i v) rows
          ((rows.map (fun r => r.getD i (Cell.str ""))).map
            to_datetime_cell)).map
        (fun r => r.getD i (Cell.str "")))
    = List.filterMap (fun c => match c with | Cell.dt d => some d | _ => none)
        ((rows.map (fun r => r.getD i (Cell.str ""))).map to_datetime_cell)
  | [] => rfl
  | r :: rs => by
    have hhead := extract_getD_set i r
    have htail := extract_row_lemma i rs
    simp only [List.map_cons, List.zipWith_cons_cons, List.filterMap_cons]
    rw [hhead, htail]

/-- The dates extracted from the mutated date column are exactly the
dates of the original column that parse. -/
theorem col_set_col_date (df : Table) (h : df.hasCol "date" = true) :
    dtExtract ((set_col df "date" (to_datetime_col (df.col "date"))).col "date")
      = parsedDates df := by
  rw [hasCol_findIdx] at h
  cases hi : df.headers.findIdx? (fun x => x == "date") with
  | none => rw [hi] at h; simp at h
  | some i =>
    unfold parsedDates set_col Table.col dtExtract to_datetime_col
    simp only [hi]
    exact extract_row_lemma i df.rows

theorem headers_set_col (df : Table) (n : String) (v : List Cell) :
    (set_col df n v).headers = df.headers := by
  unfold set_col
  cases h : df.headers.findIdx? (fun x => x == n) <;> rfl

theorem map_getD_zipWith_set_ne {i j : Nat} (hij : i ≠ j) :
    ∀ (rows : List (List Cell)) (v : List Cell), rows.length ≤ v.length →
    (List.zipWith (fun r x => r.set i x) rows v).map
        (fun r => r.getD j (Cell.str ""))
      = rows.map (fun r => r.getD j (Cell.str ""))
  | [], _, _ => rfl
  | r :: rs, [], h => by simp at h
  | r :: rs, x :: xs, h => by
    simp only [List.zipWith_cons_cons, List.map_cons]
    congr 1
    · rw [List.getD_eq_getElem?_getD, List.getD_eq_getElem?_getD,
        List.getElem?_set_ne hij]
    · exact map_getD_zipWith_set_ne hij rs xs (by simpa using h)

/-- Overwriting the date column leaves every other column unchanged
(no truncation happens when the written column is long enough). -/
theorem col_set_col_ne (df : Table) (v : List Cell) (c : String)
    (hc : c ≠ "date") (hv : df.rows.length ≤ v.length) :
    (set_col df "date" v).col c = df.col c := by
  unfold set_col
  cases hi : df.headers.findIdx? (fun x => x == "date") with
  | none => rfl
  | some i =>
    unfold Table.col
    simp only
    cases hj : df.headers.findIdx? (fun x => x == c) with
    | none => rfl
    | some j =>
      have hij : i ≠ j := by
        intro e
        subst e
        obtain ⟨hlt, hpi, _⟩ := List.findIdx?_eq_some_iff_getElem.mp hi
        obtain ⟨hlt2, hpj, _⟩ := List.findIdx?_eq_some_iff_getElem.mp hj
        rw [beq_iff_eq] at hpi hpj
        exact hc (hpj ▸ hpi)
      exact map_getD_zipWith_set_ne hij df.rows v hv

theorem map_getD_zipWith_set_self (i : Nat) :
    ∀ (rows : List (List Cell)) (v : List Cell),
      v.length = rows.length → (∀ r ∈ rows, i < r.length) →
    (List.zipWith (fun r x => r.set i x) rows v).map
        (fun r => r.getD i (Cell.str "")) = v
  | [], [], _, _ => rfl
  | [], x :: xs, h, _ => by simp at h
  | r :: rs, [], h, _ => by simp at h
  | r :: rs, x :: xs, h, hlen => by
    simp only [List.zipWith_cons_cons, List.map_cons]
    congr 1
    · rw [List.getD_eq_getElem?_getD,
        List.getElem?_set_self
          (by simpa using hlen r (List.mem_cons_self r rs))]
      rfl
    · exact map_getD_zipWith_set_self i rs xs (by simpa using h)
        (fun q hq => hlen q (List.mem_cons_of_mem r hq))

/-- On a rectangular table the mutated date column reads back exactly
as the coerced original column. -/
theorem col_set_col_date_full (df : Table) (hrect : df.Rect)
    (h : df.hasCol "date" = true) :
    (set_col df "date" (to_datetime_col (df.col "date"))).col "date"
      = to_datetime_col (df.col "date") := by
  rw [hasCol_findIdx] at h
  cases hi : df.headers.findIdx? (fun x => x == "date") with
  | none => rw [hi] at h; simp at h
  | some i =>
    have hlt : i < df.headers.length :=
      (List.findIdx?_eq_some_iff_getElem.mp hi).1
    unfold set_col Table.col to_datetime_col
    simp only [hi, List.map_map]
    exact map_getD_zipWith_set_self i df.rows _
      (by simp) (fun r hr => by rw [hrect r hr]; exact hlt)

/-- What the date block emits when at least one date survives
coercion: the span between the extremal dates and the daily average of
the rows that parsed over `max(span, 1)`. -/
theorem dateInsights_spec (dateCol : List Cell) (d : Int) (ds : List Int)
    (h : dtExtract dateCol = d :: ds) :
    ∃ dmax dmin, dmax ∈ dtExtract dateCol ∧ dmin ∈ dtExtract dateCol
      ∧ (∀ x ∈ dtExtract dateCol, dmin ≤ x ∧ x ≤ dmax)
      ∧ dateInsights dateCol =
          [Insight.dateSpan (dmax - dmin),
           Insight.dailyAvg (dtExtract dateCol).length
             (max (dmax - dmin) 1)] := by
  obtain ⟨hmmax, hdmax, hallmax⟩ := foldl_max_spec d ds
  obtain ⟨hmmin, hdmin, hallmin⟩ := foldl_min_spec d ds
  refine ⟨ds.foldl max d, ds.foldl min d, ?_, ?_, ?_, ?_⟩
  · rcases hmmax with hh | hh
    · rw [h, hh]; exact List.mem_cons_self _ _
    · rw [h]; exact List.mem_cons_of_mem d hh
  · rcases hmmin with hh | hh
    · rw [h, hh]; exact List.mem_cons_self _ _
    · rw [h]; exact List.mem_cons_of_mem d hh
  · intro x hx
    rw [h] at hx
    rcases List.mem_cons.mp hx with rfl | hx
    · exact ⟨hdmin, hdmax⟩
    · exact ⟨hallmin x hx, hallmax x hx⟩
  · unfold dateInsights
    rw [h]

/-- On an empty table with a representative column, the representative
block divides by `total_reps = 0`. -/
theorem repInsights_empty_zero (df : Table)
    (hrep : df.hasCol "representative" = true) (hrows : df.rows = []) :
    repInsights df (get_key_metrics df)
      = Except.error "ZeroDivisionError" := by
  have hcol : df.col "representative" = [] := by
    have hl := col_length df "representative" hrep
    rw [hrows] at hl
    exact List.length_eq_zero.mp (by simpa using hl)
  unfold repInsights getMetric
  rw [lookup_total_calls, lookup_total_reps]
  simp [hrep, hcol, nunique_nil, Bind.bind, Except.bind, throw, throwThe,
    MonadExceptOf.throw]

/-- A pair belongs to the daily grouping exactly when it is a day that
occurs in the data together with its occurrence count. -/
theorem mem_groupCounts (l : List Int) (d : Int) (c : Nat) :
    (d, c) ∈ groupCounts l ↔ l.count d = c ∧ c ≠ 0 := by
  unfold groupCounts
  rw [List.mem_map]
  constructor
  · rintro ⟨x, hx, he⟩
    rw [Prod.mk.injEq] at he
    obtain ⟨rfl, hcc⟩ := he
    refine ⟨hcc, ?_⟩
    rw [← hcc]
    have hmem : x ∈ l := List.mem_dedup.mp ((List.mem_insertionSort _).mp hx)
    exact Nat.pos_iff_ne_zero.mp (List.count_pos_iff.mpr hmem)
  · rintro ⟨hcount, hc⟩
    refine ⟨d, ?_, by rw [hcount]⟩
    rw [List.mem_insertionSort, List.mem_dedup]
    rw [← hcount] at hc
    exact List.count_pos_iff.mp (Nat.pos_of_ne_zero hc)

/-! ### Concrete tables used as witnesses and counterexamples -/

/-- The spec's two-row sample. -/
def sampleTable : Table :=
  { headers := ["representative", "doctor", "division", "date"],
    rows := [[Cell.str "John Doe", Cell.str "Dr. Smith",
              Cell.str "Cardiology", Cell.str "2024-01-15"],
             [Cell.str "John Doe", Cell.str "Dr. Jones",
              Cell.str "Cardiology", Cell.str "2024-01-16"]] }

/-- A date-only table with two parseable dates and one unparseable
one. -/
def mixedDates : Table :=
  { headers := ["date"],
    rows := [[Cell.str "2024-01-15"], [Cell.str "2024-01-16"],
             [Cell.str "not-a-date"]] }

/-- An empty table that still declares a representative column. -/
def emptyReps : Table :=
  { headers := ["representative"], rows := [] }

/-- A table whose date header carries trailing whitespace. -/
def spacedDate : Table :=
  { headers := ["representative", "doctor", "division", "date "],
    rows := [] }


/-- C4 counterexample: with a `"date "` header (trailing blank) the
warning fires although after lower-casing *and trimming* every required
column is present — the code's check lower-cases but does not trim. -/
theorem validate_warns_whitespace_counterexample :
    validate_warns spacedDate = true
    ∧ required_columns.all
        (fun c => (spacedDate.headers.map normalizeHeader).contains c) = true := by
  decide

/-- C4 (amended): headers are lower-cased and trimmed, and the warning
fires iff some required column is absent from the *lower-cased only*
(untrimmed) headers; so a case difference alone does not trigger it,
but a whitespace difference does. -/
theorem validate_data_spec (df : Table) :
    (validate_data df).headers = df.headers.map normalizeHeader
    ∧ (validate_warns df = true ↔
        ∃ c ∈ required_columns, c ∉ df.headers.map pyLower) := by
  refine ⟨rfl, ?_⟩
  unfold validate_warns missing_columns
  simp [List.isEmpty_iff, List.filter_eq_nil_iff]

/-- C9: with at least one row, the representative/doctor divisors are
positive and the top-value lookup succeeds; on the empty table with a
representative column the divisor is zero and the
`ZeroDivisionError` branch is taken. -/
theorem insights_division_safety (df : Table) :
    (df.rows ≠ [] → df.hasCol "representative" = true →
      ∃ n, (get_key_metrics df).lookup "total_reps" = some n ∧ 1 ≤ n
        ∧ (mostFrequent (df.col "representative")).isSome = true)
    ∧ (df.rows ≠ [] → df.hasCol "doctor" = true →
      ∃ n, (get_key_metrics df).lookup "total_doctors" = some n ∧ 1 ≤ n)
    ∧ (df.rows = [] → df.hasCol "representative" = true →
      (get_key_metrics df).lookup "total_reps" = some 0
      ∧ (generate_insights df (get_key_metrics df)).1
          = Except.error "ZeroDivisionError") := by
  refine ⟨?_, ?_, ?_⟩
  · intro hne hrep
    have hcl := col_length df "representative" hrep
    have hcolne : df.col "representative" ≠ [] := by
      intro e
      rw [e] at hcl
      exact hne (List.length_eq_zero.mp (by simpa using hcl.symm))
    refine ⟨nunique (df.col "representative"), ?_,
      nunique_pos hcolne, mostFrequent_isSome hcolne⟩
    rw [lookup_total_reps, if_pos hrep]
  · intro hne hdoc
    have hcl := col_length df "doctor" hdoc
    have hcolne : df.col "doctor" ≠ [] := by
      intro e
      rw [e] at hcl
      exact hne (List.length_eq_zero.mp (by simpa using hcl.symm))
    refine ⟨nunique (df.col "doctor"), ?_, nunique_pos hcolne⟩
    rw [lookup_total_doctors, if_pos hdoc]
  · intro he hrep
    have hcol : df.col "representative" = [] := by
      have hl := col_length df "representative" hrep
      rw [he] at hl
      exact List.length_eq_zero.mp (by simpa using hl)
    constructor
    · rw [lookup_total_reps, if_pos hrep, hcol]
      rfl
    · rw [generate_insights_eq, repInsights_empty_zero df hrep he]

/-- C9 witness: the two-row sample and the empty representative
table. -/
theorem insights_division_safety_witness :
    ((get_key_metrics sampleTable).lookup "total_reps" = some 1 ∧ 1 ≤ 1
      ∧ (mostFrequent (sampleTable.col "representative")).isSome = true)
    ∧ ((get_key_metrics emptyReps).lookup "total_reps" = some 0
      ∧ (generate_insights emptyReps (get_key_metrics emptyReps)).1
          = Except.error "ZeroDivisionError") := by
  constructor
  · obtain ⟨n, h1, h2, h3⟩ :=
      (insights_division_safety sampleTable).1 (by decide) (by decide)
    have hn : n = 1 := by
      have : (get_key_metrics sampleTable).lookup "total_reps" = some 1 := by decide
      rw [this] at h1
      exact (Option.some.injEq .. ▸ h1).symm
    subst hn
    exact ⟨h1, h2, h3⟩
  · exact (insights_division_safety emptyReps).2.2 rfl (by decide)


/-- C8: without a representative column there is no `total_reps` key,
no representative chart, and no representative insights. -/
theorem rep_absent_spec (df : Table)
    (h : df.hasCol "representative" = false) :
    (get_key_metrics df).lookup "total_reps" = none
    ∧ create_rep_performance_chart df = none
    ∧ ∀ m l, (generate_insights df m).1 = Except.ok l →
        ∀ i ∈ l, (∀ a b, i ≠ Insight.avgCallsPerRep a b)
          ∧ (∀ v c, i ≠ Insight.topPerformer v c) := by
  refine ⟨?_, ?_, ?_⟩
  · rw [lookup_total_reps, if_neg (by simp [h])]
  · simp [create_rep_performance_chart, h]
  · intro m l hok i hi
    rw [generate_insights_eq] at hok
    cases hr : repInsights df m with
    | error e => rw [hr] at hok; exact absurd hok (by simp)
    | ok r =>
      cases hd : docInsights df m with
      | error e => rw [hr, hd] at hok; exact absurd hok (by simp)
      | ok dd =>
        cases hv : divInsights df with
        | error e => rw [hr, hd, hv] at hok; exact absurd hok (by simp)
        | ok vv =>
          rw [hr, hd, hv] at hok
          have hr0 : r = [] := by
            have h2 := repInsights_rep_absent df m h
            rw [hr] at h2
            exact Except.ok.inj h2
          subst hr0
          have hmem : i ∈ dd ∨ i ∈ vv
              ∨ i ∈ dateInsights ((set_col df "date"
                  (to_datetime_col (df.col "date"))).col "date") := by
            have hok2 : ((if df.hasCol "date" = true then
                (Except.ok ([] ++ dd ++ vv ++ dateInsights ((set_col df "date"
                  (to_datetime_col (df.col "date"))).col "date")),
                 set_col df "date" (to_datetime_col (df.col "date")))
              else (Except.ok ([] ++ dd ++ vv), df) :
                Except String (List Insight) × Table)).1 = Except.ok l := hok
            by_cases hdate : df.hasCol "date" = true
            · rw [if_pos hdate] at hok2
              have hl := Except.ok.inj hok2
              rw [← hl] at hi
              rcases List.mem_append.mp hi with hx | hx
              · rcases List.mem_append.mp hx with hy | hy
                · rcases List.mem_append.mp hy with hz | hz
                  · exact absurd hz (List.not_mem_nil i)
                  · exact Or.inl hz
                · exact Or.inr (Or.inl hy)
              · exact Or.inr (Or.inr hx)
            · rw [if_neg hdate] at hok2
              have hl := Except.ok.inj hok2
              rw [← hl] at hi
              rcases List.mem_append.mp hi with hx | hx
              · rcases List.mem_append.mp hx with hy | hy
                · exact absurd hy (List.not_mem_nil i)
                · exact Or.inl hy
              · exact Or.inr (Or.inl hx)
          rcases hmem with hx | hx | hx
          · rcases docInsights_shape df m dd hd with rfl | ⟨a, b, rfl⟩
            · exact absurd hx (List.not_mem_nil i)
            · rw [List.mem_singleton.mp hx]
              exact ⟨fun _ _ => by simp, fun _ _ => by simp⟩
          · rcases divInsights_shape df vv hv with rfl | ⟨v, c, rfl⟩
            · exact absurd hx (List.not_mem_nil i)
            · rw [List.mem_singleton.mp hx]
              exact ⟨fun _ _ => by simp, fun _ _ => by simp⟩
          · rcases dateInsights_shape ((set_col df "date"
                (to_datetime_col (df.col "date"))).col "date") with he | ⟨r, n, k, he⟩
            · rw [he] at hx
              exact absurd hx (List.not_mem_nil i)
            · rw [he] at hx
              rcases List.mem_cons.mp hx with rfl | hx
              · exact ⟨fun _ _ => by simp, fun _ _ => by simp⟩
              · rw [List.mem_singleton.mp hx]
                exact ⟨fun _ _ => by simp, fun _ _ => by simp⟩

/-- C8 witness: the date-only table has no representative column. -/
theorem rep_absent_spec_witness :
    (get_key_metrics mixedDates).lookup "total_reps" = none
    ∧ create_rep_performance_chart mixedDates = none := by
  have h := rep_absent_spec mixedDates (by decide)
  exact ⟨h.1, h.2.1⟩


/-- C2 counterexample: with one unparseable date among three rows, the
emitted daily average divides the two parsed rows, not
`total_calls = 3`; the claimed insight `dailyAvg 3 1` is absent. -/
theorem daily_avg_counterexample :
    (get_key_metrics mixedDates).lookup "total_calls" = some 3
    ∧ (generate_insights mixedDates (get_key_metrics mixedDates)).1
        = Except.ok [Insight.dateSpan 1, Insight.dailyAvg 2 1]
    ∧ Insight.dailyAvg 3 1 ∉ [Insight.dateSpan 1, Insight.dailyAvg 2 1] :=
  ⟨rfl, rfl, by decide⟩

/-- C2 (amended): when at least one date parses, the insight list
contains the span between the extremal parsed dates and the daily
average whose numerator is the number of rows whose date parsed (not
`total_calls`). -/
theorem date_insights_spec_amended (df : Table) (m : List (String × Nat))
    (l : List Insight) (hok : (generate_insights df m).1 = Except.ok l)
    (hdate : df.hasCol "date" = true)
    (d : Int) (ds : List Int) (hparse : parsedDates df = d :: ds) :
    ∃ dmax dmin, dmax ∈ parsedDates df ∧ dmin ∈ parsedDates df
      ∧ (∀ x ∈ parsedDates df, dmin ≤ x ∧ x ≤ dmax)
      ∧ Insight.dateSpan (dmax - dmin) ∈ l
      ∧ Insight.dailyAvg (parsedDates df).length (max (dmax - dmin) 1) ∈ l := by
  rw [generate_insights_eq] at hok
  cases hr : repInsights df m with
  | error e => rw [hr] at hok; exact absurd hok (by simp)
  | ok r =>
    cases hd : docInsights df m with
    | error e => rw [hr, hd] at hok; exact absurd hok (by simp)
    | ok dd =>
      cases hv : divInsights df with
      | error e => rw [hr, hd, hv] at hok; exact absurd hok (by simp)
      | ok vv =>
        rw [hr, hd, hv] at hok
        have hok2 : ((if df.hasCol "date" = true then
            (Except.ok (r ++ dd ++ vv ++ dateInsights ((set_col df "date"
              (to_datetime_col (df.col "date"))).col "date")),
             set_col df "date" (to_datetime_col (df.col "date")))
          else (Except.ok (r ++ dd ++ vv), df) :
            Except String (List Insight) × Table)).1 = Except.ok l := hok
        rw [if_pos hdate] at hok2
        have hl := Except.ok.inj hok2
        have hX := col_set_col_date df hdate
        have hds : dtExtract ((set_col df "date"
            (to_datetime_col (df.col "date"))).col "date") = d :: ds := by
          rw [hX, hparse]
        obtain ⟨dmax, dmin, hmx, hmn, hall, heq⟩ :=
          dateInsights_spec _ d ds hds
        rw [hX] at hmx hmn hall heq
        refine ⟨dmax, dmin, hmx, hmn, hall, ?_, ?_⟩
        · rw [← hl]
          exact List.mem_append.mpr (Or.inr
            (by rw [heq]; exact List.mem_cons_self _ _))
        · rw [← hl]
          exact List.mem_append.mpr (Or.inr (by rw [heq]; simp))

/-- C2 witness at the mixed-date table. -/
theorem date_insights_spec_amended_witness :
    ∃ dmax dmin, dmax ∈ parsedDates mixedDates
      ∧ dmin ∈ parsedDates mixedDates
      ∧ (∀ x ∈ parsedDates mixedDates, dmin ≤ x ∧ x ≤ dmax)
      ∧ Insight.dateSpan (dmax - dmin)
          ∈ [Insight.dateSpan 1, Insight.dailyAvg 2 1]
      ∧ Insight.dailyAvg (parsedDates mixedDates).length (max (dmax - dmin) 1)
          ∈ [Insight.dateSpan 1, Insight.dailyAvg 2 1] :=
  date_insights_spec_amended mixedDates (get_key_metrics mixedDates)
    [Insight.dateSpan 1, Insight.dailyAvg 2 1] rfl (by decide)
    752942 [752943] (by decide)

/-- C5 counterexample: the call overwrites the date column of the very
table it was given (the caller survives only because `main` passes a
copy). -/
theorem generate_insights_mutates_counterexample :
    (generate_insights mixedDates (get_key_metrics mixedDates)).2
      ≠ mixedDates := by
  decide

/-- C5 (amended): the insight generator leaves headers and all other
columns intact and touches nothing when no date column exists or an
exception is raised, but on success it overwrites its argument's date
column with the coerced datetimes. -/
theorem generate_insights_frame (df : Table) (m : List (String × Nat)) :
    ((generate_insights df m).2).headers = df.headers
    ∧ (∀ c : String, c ≠ "date" →
        ((generate_insights df m).2).col c = df.col c)
    ∧ (df.hasCol "date" = false → (generate_insights df m).2 = df)
    ∧ (∀ e, (generate_insights df m).1 = Except.error e →
        (generate_insights df m).2 = df)
    ∧ (df.Rect → df.hasCol "date" = true →
        ∀ l, (generate_insights df m).1 = Except.ok l →
          ((generate_insights df m).2).col "date"
            = to_datetime_col (df.col "date")) := by
  have hdec := generate_insights_eq df m
  cases hr : repInsights df m with
  | error e =>
    rw [hr] at hdec
    have hdec2 : generate_insights df m = (Except.error e, df) := hdec
    rw [hdec2]
    exact ⟨rfl, fun c hc => rfl, fun _ => rfl, fun _ _ => rfl,
      fun _ _ l hl => absurd hl (by simp)⟩
  | ok r =>
    cases hd : docInsights df m with
    | error e =>
      rw [hr, hd] at hdec
      have hdec2 : generate_insights df m = (Except.error e, df) := hdec
      rw [hdec2]
      exact ⟨rfl, fun c hc => rfl, fun _ => rfl, fun _ _ => rfl,
        fun _ _ l hl => absurd hl (by simp)⟩
    | ok dd =>
      cases hv : divInsights df with
      | error e =>
        rw [hr, hd, hv] at hdec
        have hdec2 : generate_insights df m = (Except.error e, df) := hdec
        rw [hdec2]
        exact ⟨rfl, fun c hc => rfl, fun _ => rfl, fun _ _ => rfl,
          fun _ _ l hl => absurd hl (by simp)⟩
      | ok vv =>
        rw [hr, hd, hv] at hdec
        have hdec2 : generate_insights df m =
            (if df.hasCol "date" = true then
              (Except.ok (r ++ dd ++ vv ++ dateInsights ((set_col df "date"
                (to_datetime_col (df.col "date"))).col "date")),
               set_col df "date" (to_datetime_col (df.col "date")))
            else (Except.ok (r ++ dd ++ vv), df)) := hdec
        by_cases hdate : df.hasCol "date" = true
        · rw [if_pos hdate] at hdec2
          rw [hdec2]
          have hv2 : df.rows.length
              ≤ (to_datetime_col (df.col "date")).length := by
            unfold to_datetime_col
            rw [List.length_map, col_length df "date" hdate]
          refine ⟨headers_set_col df "date" _, ?_, ?_, ?_, ?_⟩
          · exact fun c hc => col_set_col_ne df _ c hc hv2
          · intro hfalse
            rw [hfalse] at hdate
            exact absurd hdate Bool.false_ne_true
          · intro e he; exact absurd he (by simp)
          · intro hrect _ l _
            exact col_set_col_date_full df hrect hdate
        · rw [if_neg hdate] at hdec2
          rw [hdec2]
          exact ⟨rfl, fun c hc => rfl, fun _ => rfl, fun _ _ => rfl,
            fun _ hdt l hl => absurd hdt hdate⟩


/-- C5 witness: a rectangular table with a date column, for which the
other-column and date-column conclusions are discharged concretely. -/
theorem generate_insights_frame_witness :
    ((generate_insights sampleTable (get_key_metrics sampleTable)).2).col
        "doctor" = sampleTable.col "doctor"
    ∧ ((generate_insights sampleTable (get_key_metrics sampleTable)).2).col
        "date" = to_datetime_col (sampleTable.col "date") :=
  ⟨(generate_insights_frame sampleTable (get_key_metrics sampleTable)).2.1
      "doctor" (by decide),
   (generate_insights_frame sampleTable (get_key_metrics sampleTable)).2.2.2.2
      (by decide) rfl
      [Insight.avgCallsPerRep 2 1,
       Insight.topPerformer (Cell.str "John Doe") 2,
       Insight.avgVisitsPerDoctor 2 2,
       Insight.topDivision (Cell.str "Cardiology") 2,
       Insight.dateSpan 1, Insight.dailyAvg 2 1] rfl⟩

/-- C6: the time-trend chart is empty exactly when the date column is
absent or no date parses; otherwise its points are exactly the days
that occur among the parsed dates with their row counts — unparseable
rows are simply excluded, never an error. -/
theorem create_time_trend_chart_spec (df : Table) :
    (create_time_trend_chart df = none ↔
      (df.hasCol "date" = false ∨ parsedDates df = []))
    ∧ (∀ ch, create_time_trend_chart df = some ch →
        ∀ d c, ((d, c) ∈ ch ↔ (parsedDates df).count d = c ∧ c ≠ 0)) := by
  unfold create_time_trend_chart
  by_cases hdate : df.hasCol "date" = true
  · rw [if_pos hdate]
    by_cases hp : (parsedDates df).length = 0
    · rw [if_pos hp]
      refine ⟨?_, ?_⟩
      · simp [List.length_eq_zero.mp hp]
      · intro ch hch
        exact absurd hch (by simp)
    · rw [if_neg hp]
      refine ⟨?_, ?_⟩
      · constructor
        · intro hc
          exact absurd hc (by simp)
        · rintro (hc | hc)
          · rw [hdate] at hc
            exact absurd hc (by simp)
          · exact absurd (by rw [hc]; rfl) hp
      · intro ch hch d c
        have hcg : groupCounts (parsedDates df) = ch := Option.some.inj hch
        rw [← hcg]
        exact mem_groupCounts _ d c
  · rw [if_neg hdate]
    refine ⟨?_, ?_⟩
    · simp only [Bool.not_eq_true] at hdate
      exact ⟨fun _ => Or.inl hdate, fun _ => rfl⟩
    · intro ch hch
      exact absurd hch (by simp)

/-- C6 witness at the mixed-date table. -/
theorem create_time_trend_chart_spec_witness :
    (752942, 1) ∈ [((752942 : Int), 1), (752943, 1)] ↔
      ((parsedDates mixedDates).count 752942 = 1 ∧ 1 ≠ 0) :=
  (create_time_trend_chart_spec mixedDates).2
    [(752942, 1), (752943, 1)] rfl 752942 1

theorem toOption_eq_none_iff {α : Type} (x : Except String α) :
    x.toOption = none ↔ ∃ e, x = Except.error e := by
  cases x <;> simp [Except.toOption]

/-- C7: the loader dispatches on the file extension — `.csv` to the
CSV parser, `.xlsx`/`.xls` to the spreadsheet parser — returns the
parsed table unchanged on success, and yields no table exactly on an
unsupported extension or a parser exception. -/
theorem load_data_spec {β : Type} (rc rx : β → Except String Table)
    (f : UploadFile β) :
    (pyEndsWith f.name ".csv" = true →
      load_data rc rx f = (rc f.content).toOption)
    ∧ (pyEndsWith f.name ".csv" = false →
        (pyEndsWith f.name ".xlsx" = true ∨ pyEndsWith f.name ".xls" = true) →
        load_data rc rx f = (rx f.content).toOption)
    ∧ (pyEndsWith f.name ".csv" = false → pyEndsWith f.name ".xlsx" = false →
        pyEndsWith f.name ".xls" = false → load_data rc rx f = none)
    ∧ (∀ t, pyEndsWith f.name ".csv" = true → rc f.content = Except.ok t →
        load_data rc rx f = some t)
    ∧ (load_data rc rx f = none ↔
        ((pyEndsWith f.name ".csv" = false ∧ pyEndsWith f.name ".xlsx" = false
            ∧ pyEndsWith f.name ".xls" = false)
          ∨ (pyEndsWith f.name ".csv" = true
              ∧ ∃ e, rc f.content = Except.error e)
          ∨ (pyEndsWith f.name ".csv" = false
              ∧ (pyEndsWith f.name ".xlsx" = true
                  ∨ pyEndsWith f.name ".xls" = true)
              ∧ ∃ e, rx f.content = Except.error e))) := by
  unfold load_data
  by_cases h1 : pyEndsWith f.name ".csv" = true
  · rw [if_pos h1]
    refine ⟨fun _ => rfl, ?_, ?_, ?_, ?_⟩
    · intro hc
      rw [h1] at hc
      exact absurd hc (by simp)
    · intro hc
      rw [h1] at hc
      exact absurd hc (by simp)
    · intro t _ hok
      rw [hok]
      rfl
    · rw [toOption_eq_none_iff]
      constructor
      · intro he
        exact Or.inr (Or.inl ⟨h1, he⟩)
      · rintro (⟨hc, _, _⟩ | ⟨_, he⟩ | ⟨hc, _, _⟩)
        · rw [h1] at hc
          exact absurd hc (by simp)
        · exact he
        · rw [h1] at hc
          exact absurd hc (by simp)
  · have h1f : pyEndsWith f.name ".csv" = false := by
      cases hb : pyEndsWith f.name ".csv"
      · rfl
      · exact absurd hb h1
    rw [if_neg h1]
    by_cases h2 : (pyEndsWith f.name ".xlsx" = true
        ∨ pyEndsWith f.name ".xls" = true)
    · rw [if_pos h2]
      refine ⟨fun hc => absurd hc h1, fun _ _ => rfl, ?_, ?_, ?_⟩
      · intro _ hx1 hx2
        rcases h2 with hc | hc
        · rw [hx1] at hc
          exact absurd hc (by simp)
        · rw [hx2] at hc
          exact absurd hc (by simp)
      · intro t hc _
        exact absurd hc h1
      · rw [toOption_eq_none_iff]
        constructor
        · intro he
          exact Or.inr (Or.inr ⟨h1f, h2, he⟩)
        · rintro (⟨_, hx1, hx2⟩ | ⟨hc, _⟩ | ⟨_, _, he⟩)
          · rcases h2 with hc | hc
            · rw [hx1] at hc
              exact absurd hc (by simp)
            · rw [hx2] at hc
              exact absurd hc (by simp)
          · exact absurd hc h1
          · exact he
    · rw [if_neg h2]
      push_neg at h2
      simp only [Bool.not_eq_true] at h2
      obtain ⟨hx1, hx2⟩ := h2
      refine ⟨fun hc => absurd hc h1, ?_, fun _ _ _ => rfl, ?_, ?_⟩
      · rintro _ (hc | hc)
        · rw [hx1] at hc
          exact absurd hc (by simp)
        · rw [hx2] at hc
          exact absurd hc (by simp)
      · intro t hc _
        exact absurd hc h1
      · constructor
        · intro _
          exact Or.inl ⟨h1f, hx1, hx2⟩
        · intro _
          rfl


/-- C7 witness: a `.csv` upload with a succeeding parser, and an
unsupported `.txt` upload. -/
theorem load_data_spec_witness :
    load_data (fun _ => Except.ok sampleTable)
        (fun _ => Except.error "excel") ⟨"report.csv", ()⟩
      = some sampleTable
    ∧ load_data (fun _ => (Except.ok sampleTable : Except String Table))
        (fun _ => Except.error "excel") ⟨"report.txt", ()⟩
      = none :=
  ⟨(load_data_spec (fun _ => Except.ok sampleTable)
      (fun _ => Except.error "excel") ⟨"report.csv", ()⟩).2.2.2.1
      sampleTable (by decide) rfl,
   (load_data_spec (fun _ => (Except.ok sampleTable : Except String Table))
      (fun _ => Except.error "excel") ⟨"report.txt", ()⟩).2.2.1
      (by decide) (by decide) (by decide)⟩

/-- C3 counterexample: an exception raised by the chart-library call
inside the representative chart builder propagates out of the builder
instead of being caught. -/
theorem chart_exception_counterexample :
    create_rep_performance_chart_exc
        (fun _ => (Except.error "boom" : Except String Unit)) sampleTable
      = Except.error "boom" := by
  rfl

/-- C3 (amended): only the time-trend builder wraps its construction
in a handler — it never lets an exception escape — while the other
four builders propagate any exception raised by their chart-library
call. -/
theorem chart_exception_policy {C : Type} (e : String) (df : Table) :
    (∀ px : List (Int × Nat) → Except String C,
      ∃ r, create_time_trend_chart_exc px df = Except.ok r)
    ∧ (df.hasCol "representative" = true →
        create_rep_performance_chart_exc
          (fun _ => (Except.error e : Except String C)) df = Except.error e)
    ∧ (df.hasCol "division" = true →
        create_division_analysis_chart_exc
          (fun _ => (Except.error e : Except String C)) df = Except.error e)
    ∧ (df.hasCol "doctor" = true →
        create_doctor_engagement_chart_exc
          (fun _ => (Except.error e : Except String C)) df = Except.error e)
    ∧ (df.hasCol "division" = true → df.hasCol "representative" = true →
        create_cross_analysis_exc
          (fun _ => (Except.error e : Except String C)) df
          = Except.error e) := by
  refine ⟨?_, ?_, ?_, ?_, ?_⟩
  · intro px
    unfold create_time_trend_chart_exc
    by_cases hdate : df.hasCol "date" = true
    · rw [if_pos hdate]
      by_cases hp : (parsedDates df).length = 0
      · exact ⟨none, by simp [hp, pure, Except.pure]⟩
      · cases hpx : px (groupCounts (parsedDates df)) with
        | ok fig =>
          exact ⟨some fig, by
            simp [hp, hpx, Bind.bind, Except.bind, pure, Except.pure]⟩
        | error s =>
          exact ⟨none, by
            simp [hp, hpx, Bind.bind, Except.bind, pure, Except.pure]⟩
    · rw [if_neg hdate]
      exact ⟨none, rfl⟩
  · intro h
    simp [create_rep_performance_chart_exc, h, Bind.bind, Except.bind]
  · intro h
    simp [create_division_analysis_chart_exc, h, Bind.bind, Except.bind]
  · intro h
    simp [create_doctor_engagement_chart_exc, h, Bind.bind, Except.bind]
  · intro h1 h2
    simp [create_cross_analysis_exc, h1, h2, Bind.bind, Except.bind]

/-- C3 witness: a failing library call propagates out of four
builders but never out of the time-trend builder. -/
theorem chart_exception_policy_witness :
    create_doctor_engagement_chart_exc
        (fun _ => (Except.error "boom" : Except String Unit)) sampleTable
      = Except.error "boom"
    ∧ ∃ r, create_time_trend_chart_exc
        (fun _ => (Except.error "boom" : Except String Unit)) sampleTable
      = Except.ok r :=
  ⟨(chart_exception_policy "boom" sampleTable).2.2.2.1 (by decide),
   (chart_exception_policy "boom" sampleTable).1 _⟩

end Dashboard
